import Mathlib

/-!
Verification of the Dhanvantri batch pipeline core: a shallow embedding of
`batch_processor.py`, `drug_mapper.py` and `annotator.py`, together with
theorems about batch partitioning, parallel dispatch, result merging,
identifier normalization and interaction resolution.

Python strings are modelled as Lean `String`; Python's `str.lower`,
`str.upper`, `str.strip`, the lexicographic `<` on strings and `str.split`
are modelled character-exactly (code-point case mapping on the ASCII range,
which covers every string the program manipulates) by the `py`-prefixed
helpers below, so that every definition is executable and decidable on
concrete inputs.
-/

/-- Model of Python `str.lower` on one character (ASCII case mapping). -/
def lowerChar (c : Char) : Char :=
  if 65 ≤ c.toNat ∧ c.toNat ≤ 90 then Char.ofNat (c.toNat + 32) else c

/-- Model of Python `str.lower`. -/
def pyLower (s : String) : String := ⟨s.data.map lowerChar⟩

/-- Model of Python `str.upper` on one character (ASCII case mapping). -/
def upperChar (c : Char) : Char :=
  if 97 ≤ c.toNat ∧ c.toNat ≤ 122 then Char.ofNat (c.toNat - 32) else c

/-- Model of Python `str.upper`. -/
def pyUpper (s : String) : String := ⟨s.data.map upperChar⟩

/-- Whitespace recognized by Python `str.strip` (the forms that occur here),
by code point: space, tab, newline, carriage return. -/
def isSpaceChar (c : Char) : Bool :=
  c.toNat = 32 ∨ c.toNat = 9 ∨ c.toNat = 10 ∨ c.toNat = 13

/-- Drop leading and trailing whitespace from a character list. -/
def stripL (l : List Char) : List Char :=
  ((l.dropWhile isSpaceChar).reverse.dropWhile isSpaceChar).reverse

/-- Model of Python `str.strip`. -/
def pyStrip (s : String) : String := ⟨stripL s.data⟩

/-- Code-point comparison of characters, as Python compares them. -/
def charLt (a b : Char) : Bool := a.toNat < b.toNat

/-- Lexicographic comparison of character lists; model of Python `<` on `str`. -/
def lexLt : List Char → List Char → Bool
  | _ :: _, [] => false
  | [], _ :: _ => true
  | [], [] => false
  | a :: as, b :: bs => charLt a b || (a = b && lexLt as bs)

/-- Model of Python `<` on strings. -/
def pyLt (s t : String) : Bool := lexLt s.data t.data

/-- Python truthiness of an `Optional[str]`: `None` and `""` are falsy. -/
def truthy : Option String → Bool
  | none => false
  | some s => !s.data.isEmpty

/-- Split a character list on the two-character separator `", "` (model of
Python `str.split(", ")`, used only to inspect comma-joined source labels). -/
def splitCommaSpace : List Char → List (List Char)
  | [] => [[]]
  | ',' :: ' ' :: rest => [] :: splitCommaSpace rest
  | c :: cs =>
    match splitCommaSpace cs with
    | [] => [[c]]
    | t :: ts => (c :: t) :: ts

/-- Model of Python `s.split(", ")`, as a function on strings. -/
def pySplitCommaSpace (s : String) : List String :=
  (splitCommaSpace s.data).map (fun l => ⟨l⟩)

/-! ## Batch extraction (`batch_processor.py`, `extract_batch`)

A VCF file is modelled as its list of lines. A line is a header line when it
starts with `#`, exactly the `line.startswith('#')` test of the source. -/

/-- Model of `line.startswith('#')`. -/
def isHeaderLine (line : String) : Bool := line.data.head? = some '#'

/-- The data rows of a file: every line not starting with `#`, in order
(the rows counted by `count_variants` and by `extract_batch`'s loop). -/
def dataRows (lines : List String) : List String :=
  lines.filter (fun l => !isHeaderLine l)

/-- The selection loop of `extract_batch` restricted to data rows: `cnt` is the
running `line_count`; a row is written when `start_line < line_count` and the
loop breaks as soon as `line_count > end_line`. -/
def sliceLoop {α : Type} (startL endL : Nat) : List α → Nat → List α
  | [], _ => []
  | x :: xs, cnt =>
    if endL < cnt + 1 then []
    else if startL < cnt + 1 then x :: sliceLoop startL endL xs (cnt + 1)
    else sliceLoop startL endL xs (cnt + 1)

/-- The second loop of `extract_batch` over raw lines: header lines are
skipped by `continue` (they do not advance `line_count`). -/
def extractLoop (startL endL : Nat) : List String → Nat → List String
  | [], _ => []
  | l :: ls, cnt =>
    if isHeaderLine l then extractLoop startL endL ls cnt
    else if endL < cnt + 1 then []
    else if startL < cnt + 1 then l :: extractLoop startL endL ls (cnt + 1)
    else extractLoop startL endL ls (cnt + 1)

/-- Embedding of `extract_batch`: the written batch file's lines. The first
loop copies the leading header block verbatim; after `seek(0)` the second loop
writes the data rows with `start_line < line_count ≤ end_line`, where
`start_line = batch_index * batch_size` and `end_line = start_line + batch_size`. -/
def extract_batch (lines : List String) (batchIndex batchSize : Nat) : List String :=
  lines.takeWhile isHeaderLine ++
    extractLoop (batchIndex * batchSize) (batchIndex * batchSize + batchSize) lines 0

/-- The 0-based data-row indices materialized by batch `batchIndex`: the same
selection loop run on the row indices themselves. -/
def extractIndices (numRows batchIndex batchSize : Nat) : List Nat :=
  sliceLoop (batchIndex * batchSize) (batchIndex * batchSize + batchSize)
    (List.range numRows) 0

/-- The number of batches computed by `process_in_parallel`:
`(total_variants + batch_size - 1) // batch_size`. -/
def numBatches (totalVariants batchSize : Nat) : Nat :=
  (totalVariants + batchSize - 1) / batchSize

theorem extractLoop_eq_sliceLoop (startL endL : Nat) (lines : List String) (cnt : Nat) :
    extractLoop startL endL lines cnt =
      sliceLoop startL endL (dataRows lines) cnt := by
  induction lines generalizing cnt with
  | nil => rfl
  | cons l ls ih =>
    by_cases h : isHeaderLine l
    · simp [extractLoop, dataRows, sliceLoop, h, ih, List.filter_cons]
    · simp only [extractLoop, dataRows, List.filter_cons, h, Bool.not_false, if_neg h]
      simp only [sliceLoop]
      by_cases h1 : endL < cnt + 1
      · simp [h1]
      · by_cases h2 : startL < cnt + 1 <;>
          simp [h1, h2, ih, dataRows]

theorem sliceLoop_ge {α : Type} (startL endL : Nat) (l : List α) (cnt : Nat)
    (h1 : startL ≤ cnt) (h2 : cnt ≤ endL) :
    sliceLoop startL endL l cnt = l.take (endL - cnt) := by
  induction l generalizing cnt with
  | nil => simp [sliceLoop]
  | cons x xs ih =>
    simp only [sliceLoop]
    by_cases he : endL < cnt + 1
    · have : endL - cnt = 0 := by omega
      simp [he, this]
    · have hs : startL < cnt + 1 := by omega
      have : endL - cnt = (endL - (cnt + 1)) + 1 := by omega
      simp [he, hs, this, ih (cnt + 1) (by omega) (by omega)]

theorem sliceLoop_eq_drop_take {α : Type} (startL endL : Nat) (l : List α) (cnt : Nat)
    (h1 : cnt ≤ startL) (h2 : startL ≤ endL) :
    sliceLoop startL endL l cnt = (l.drop (startL - cnt)).take (endL - startL) := by
  induction l generalizing cnt with
  | nil => simp [sliceLoop]
  | cons x xs ih =>
    simp only [sliceLoop]
    by_cases he : endL < cnt + 1
    · have ha : startL = endL := by omega
      have : endL - startL = 0 := by omega
      simp [he, this]
    · by_cases hs : startL < cnt + 1
      · have hc : startL = cnt := by omega
        have hd : startL - cnt = 0 := by omega
        have hlen : endL - startL = (endL - (cnt + 1)) + 1 := by omega
        simp [he, hs, hd, hlen, sliceLoop_ge startL endL xs (cnt + 1) (by omega) (by omega)]
      · have hd : startL - cnt = (startL - (cnt + 1)) + 1 := by omega
        simp [he, hs, ih (cnt + 1) (by omega), hd]

theorem take_range' (m k n : Nat) :
    (List.range' k n).take m = List.range' k (min m n) := by
  induction m generalizing k n with
  | zero => simp
  | succ m ih =>
    cases n with
    | zero => simp
    | succ n =>
      have : min (m + 1) (n + 1) = min m n + 1 := by omega
      rw [List.range'_succ, this, List.range'_succ, List.take_succ_cons, ih]

theorem drop_range' (m k n : Nat) :
    (List.range' k n).drop m = List.range' (k + m) (n - m) := by
  induction m generalizing k n with
  | zero => simp
  | succ m ih =>
    cases n with
    | zero => simp
    | succ n =>
      rw [List.range'_succ, List.drop_succ_cons, ih]
      congr 1 <;> omega

theorem extractIndices_eq_range' (numRows b s : Nat) :
    extractIndices numRows b s =
      List.range' (b * s) (min s (numRows - b * s)) := by
  unfold extractIndices
  rw [sliceLoop_eq_drop_take _ _ _ _ (Nat.zero_le _) (Nat.le_add_right _ _)]
  rw [List.range_eq_range', Nat.sub_zero, drop_range', Nat.zero_add, take_range']
  congr 1
  omega

theorem getD_map_range' (l : List α) (d : α) (k m : Nat) (h : k + m ≤ l.length) :
    (List.range' k m).map (fun i => l.getD i d) = (l.drop k).take m := by
  induction m generalizing k with
  | zero => simp
  | succ m ih =>
    have hk : k < l.length := by omega
    rw [List.range'_succ, List.map_cons, ih (k + 1) (by omega),
      List.drop_eq_getElem_cons hk, List.take_succ_cons]
    congr 1
    simp [List.getD_eq_getElem?_getD, List.getElem?_eq_getElem hk]

/-- The rows written by `extract_batch` are exactly the data rows whose 0-based
index lies in `extractIndices`: the index sets of the partition theorems below
really are the index sets the extraction materializes. -/
theorem extract_batch_rows (lines : List String) (b s : Nat) :
    extract_batch lines b s =
      lines.takeWhile isHeaderLine ++
        (extractIndices (dataRows lines).length b s).map
          (fun i => (dataRows lines).getD i "") := by
  unfold extract_batch
  congr 1
  rw [extractLoop_eq_sliceLoop,
    sliceLoop_eq_drop_take _ _ _ _ (Nat.zero_le _) (Nat.le_add_right _ _),
    extractIndices_eq_range', Nat.sub_zero, Nat.add_sub_cancel_left]
  rcases Nat.le_total (b * s) (dataRows lines).length with hbs | hbs
  · rw [getD_map_range' _ _ _ _ (by omega), List.take_eq_take]
    simp only [List.length_drop]
    omega
  · have h0 : min s ((dataRows lines).length - b * s) = 0 := by omega
    rw [h0]
    simp [List.drop_eq_nil_of_le hbs]

theorem flatMap_range'_batches (s N : Nat) (hs : 0 < s) :
    ∀ n, (List.range n).flatMap (fun b => List.range' (b * s) (min s (N - b * s))) =
      List.range (min (n * s) N) := by
  intro n
  induction n with
  | zero => simp
  | succ n ih =>
    rw [List.range_succ, List.flatMap_append, ih, List.flatMap_cons, List.flatMap_nil,
      List.append_nil]
    rcases Nat.le_total N (n * s) with h | h
    · have h1 : min (n * s) N = N := by omega
      have h2 : min s (N - n * s) = 0 := by omega
      have h3 : min ((n + 1) * s) N = N := by
        have : n * s ≤ (n + 1) * s := Nat.mul_le_mul_right s (by omega)
        omega
      simp [h1, h2, h3]
    · have h1 : min (n * s) N = n * s := by omega
      rw [h1, List.range_eq_range', List.range_eq_range']
      have := List.range'_append 0 (n * s) (min s (N - n * s)) 1
      simp only [Nat.zero_add, Nat.one_mul] at this
      rw [this]
      congr 1
      have h2 : (n + 1) * s = n * s + s := by ring
      omega

/-- C1: for every `batchSize > 0` and input with `N` data rows, the 0-based
data-row index sets produced by `extract_batch` for batch indices
`0 .. ceil(N/batchSize) - 1` partition `[0, N)`: each batch's index set is a
contiguous range (`List.range'`) in input order, the sets are pairwise
disjoint, and their concatenation in batch order is exactly `[0, N)`. -/
theorem extract_batch_partition (lines : List String) (batchSize : Nat)
    (hs : 0 < batchSize) :
    (∀ b, extractIndices (dataRows lines).length b batchSize =
        List.range' (b * batchSize)
          (min batchSize ((dataRows lines).length - b * batchSize))) ∧
    ((List.range (numBatches (dataRows lines).length batchSize)).map
        (fun b => extractIndices (dataRows lines).length b batchSize)).Pairwise
      (fun l1 l2 => ∀ i ∈ l1, i ∉ l2) ∧
    (List.range (numBatches (dataRows lines).length batchSize)).flatMap
        (fun b => extractIndices (dataRows lines).length b batchSize) =
      List.range (dataRows lines).length := by
  set N := (dataRows lines).length with hN
  refine ⟨fun b => extractIndices_eq_range' N b batchSize, ?_, ?_⟩
  · rw [List.pairwise_map]
    apply (List.pairwise_lt_range _).imp
    intro b1 b2 hlt i h1 h2
    rw [extractIndices_eq_range', List.mem_range'] at h1 h2
    obtain ⟨j1, hj1, rfl⟩ := h1
    obtain ⟨j2, hj2, he⟩ := h2
    have hb : b1 * batchSize + batchSize ≤ b2 * batchSize := by
      have := Nat.mul_le_mul_right batchSize (Nat.succ_le_of_lt hlt)
      simpa [Nat.succ_mul] using this
    have h1s : j1 < batchSize := lt_of_lt_of_le hj1 (min_le_left _ _)
    omega
  · have hcongr : (List.range (numBatches N batchSize)).flatMap
        (fun b => extractIndices N b batchSize) =
        (List.range (numBatches N batchSize)).flatMap
          (fun b => List.range' (b * batchSize) (min batchSize (N - b * batchSize))) := by
      apply List.flatMap_congr
      intro b _
      exact extractIndices_eq_range' N b batchSize
    rw [hcongr, flatMap_range'_batches batchSize N hs]
    congr 1
    have hd := Nat.div_add_mod (N + batchSize - 1) batchSize
    have hm : (N + batchSize - 1) % batchSize < batchSize := Nat.mod_lt _ hs
    have : numBatches N batchSize * batchSize =
        batchSize * ((N + batchSize - 1) / batchSize) := by
      unfold numBatches; ring
    omega

/-- C1 witness: a concrete 3-data-row input with `batchSize = 2`. -/
theorem extract_batch_partition_witness :
    0 < 2 ∧
    ((∀ b, extractIndices (dataRows ["##hdr", "row1", "row2", "row3"]).length b 2 =
        List.range' (b * 2)
          (min 2 ((dataRows ["##hdr", "row1", "row2", "row3"]).length - b * 2))) ∧
    ((List.range (numBatches (dataRows ["##hdr", "row1", "row2", "row3"]).length 2)).map
        (fun b => extractIndices (dataRows ["##hdr", "row1", "row2", "row3"]).length b 2)).Pairwise
      (fun l1 l2 => ∀ i ∈ l1, i ∉ l2) ∧
    (List.range (numBatches (dataRows ["##hdr", "row1", "row2", "row3"]).length 2)).flatMap
        (fun b => extractIndices (dataRows ["##hdr", "row1", "row2", "row3"]).length b 2) =
      List.range (dataRows ["##hdr", "row1", "row2", "row3"]).length) :=
  ⟨by decide, extract_batch_partition ["##hdr", "row1", "row2", "row3"] 2 (by decide)⟩

/-! ## Drug-gene interactions and the merge step

`DrugGeneInteraction` (`drug_mapper.py`) is embedded with the fields that the
merge (`merge_batch_results`), deduplication and evidence sort read or write.
Fields typed `str` in the dataclass but compared against `None` by the merge
are `Option String`; the dataclass's remaining optional metadata fields
(`last_updated`, `guideline_url`, ..., `guideline_id`) are never read or
written by any modelled operation and are omitted. -/

structure DrugGeneInteraction where
  drug : String
  gene : String
  phenotype : Option String
  source : String
  evidence_level : Option String
  recommendation : Option String
  literature_refs : List String
  cpic_level : Option String
  pharmgkb_level : Option String
deriving DecidableEq, Repr

/-- The merge key of `merge_batch_results`:
`f"{interaction.drug.lower()}_{interaction.gene.lower()}"`. -/
def keyOf (i : DrugGeneInteraction) : String :=
  pyLower i.drug ++ "_" ++ pyLower i.gene

/-- The in-place update `merge_batch_results` applies when a later interaction
hits an existing entry with the same key (`batch_processor.py` lines 188-214):
source appended when different, phenotype adopted when existing is `None`,
evidence level replaced when the new one is truthy and lexicographically
smaller (Python string `<`), recommendations concatenated, literature
references unioned with duplicates removed (`list(set(...))`; Python's set
order is unspecified, so one duplicate-free representative is fixed here and
claims about references are stated as set membership). -/
def mergeInto (e i : DrugGeneInteraction) : DrugGeneInteraction :=
  { e with
    source := if e.source ≠ i.source then e.source ++ ", " ++ i.source else e.source
    phenotype := if e.phenotype = none ∧ i.phenotype ≠ none then i.phenotype else e.phenotype
    evidence_level :=
      if truthy i.evidence_level ∧
          (e.evidence_level = none ∨
            pyLt (i.evidence_level.getD "") (e.evidence_level.getD "") = true) then
        i.evidence_level
      else e.evidence_level
    recommendation :=
      if truthy i.recommendation ∧ truthy e.recommendation then
        some ((e.recommendation.getD "") ++ "\n\n" ++ (i.recommendation.getD ""))
      else if truthy i.recommendation then i.recommendation
      else e.recommendation
    literature_refs := (e.literature_refs ++ i.literature_refs).dedup }

/-- One step of the merge walk: the first entry with the same key is updated
in place (Python dict keeps the first-insertion position), otherwise the
interaction is appended as a fresh entry. -/
def insertMerge : List DrugGeneInteraction → DrugGeneInteraction → List DrugGeneInteraction
  | [], i => [i]
  | e :: rest, i =>
    if keyOf e = keyOf i then mergeInto e i :: rest
    else e :: insertMerge rest i

/-- Embedding of `merge_batch_results` on the concatenated interaction list:
walk the sequence, inserting first occurrences and folding later occurrences
of the same key into the existing entry; output in first-seen key order. -/
def merge_batch_results (l : List DrugGeneInteraction) : List DrugGeneInteraction :=
  l.foldl insertMerge []

theorem keyOf_mergeInto (e i : DrugGeneInteraction) : keyOf (mergeInto e i) = keyOf e := rfl

theorem insertMerge_of_fresh (acc : List DrugGeneInteraction) (i : DrugGeneInteraction)
    (h : ∀ e ∈ acc, keyOf e ≠ keyOf i) : insertMerge acc i = acc ++ [i] := by
  induction acc with
  | nil => rfl
  | cons e rest ih =>
    have he : keyOf e ≠ keyOf i := h e (by simp)
    simp only [insertMerge, if_neg he, List.cons_append, List.cons.injEq, true_and]
    exact ih (fun x hx => h x (by simp [hx]))

theorem foldl_insertMerge_of_pairwise (l acc : List DrugGeneInteraction)
    (h : (acc ++ l).Pairwise (fun a b => keyOf a ≠ keyOf b)) :
    l.foldl insertMerge acc = acc ++ l := by
  induction l generalizing acc with
  | nil => simp
  | cons x xs ih =>
    have hfresh : ∀ e ∈ acc, keyOf e ≠ keyOf x := by
      intro e he
      have := (List.pairwise_append.mp h).2.2 e he x (by simp)
      exact this
    rw [List.foldl_cons, insertMerge_of_fresh acc x hfresh, ih]
    · simp
    · have : (acc ++ [x]) ++ xs = acc ++ x :: xs := by simp
      rw [this]
      exact h

/-- C4: the merge fold is idempotent on already-merged collections: if no two
interactions of `l` share the merge key, `merge_batch_results` returns `l`
unchanged (same entries, same order, same field values), so applying the
deduplication to its own output is the identity. -/
theorem merge_batch_results_idempotent (l : List DrugGeneInteraction)
    (h : l.Pairwise (fun a b => keyOf a ≠ keyOf b)) :
    merge_batch_results l = l := by
  unfold merge_batch_results
  have := foldl_insertMerge_of_pairwise l [] (by simpa using h)
  simpa using this

/-- C4 witness: two interactions with distinct keys survive a merge untouched. -/
theorem merge_batch_results_idempotent_witness :
    ([⟨"Warfarin", "CYP2C9", none, "CPIC", some "A", none, ["PMID:1"], some "A", none⟩,
      ⟨"Warfarin", "VKORC1", none, "CPIC", some "A", none, [], some "A", none⟩] :
        List DrugGeneInteraction).Pairwise (fun a b => keyOf a ≠ keyOf b) ∧
    merge_batch_results
      [⟨"Warfarin", "CYP2C9", none, "CPIC", some "A", none, ["PMID:1"], some "A", none⟩,
       ⟨"Warfarin", "VKORC1", none, "CPIC", some "A", none, [], some "A", none⟩] =
      [⟨"Warfarin", "CYP2C9", none, "CPIC", some "A", none, ["PMID:1"], some "A", none⟩,
       ⟨"Warfarin", "VKORC1", none, "CPIC", some "A", none, [], some "A", none⟩] :=
  ⟨by decide,
    merge_batch_results_idempotent
      [⟨"Warfarin", "CYP2C9", none, "CPIC", some "A", none, ["PMID:1"], some "A", none⟩,
       ⟨"Warfarin", "VKORC1", none, "CPIC", some "A", none, [], some "A", none⟩]
      (by decide)⟩

/-- Spec-side definition (§4.6a), for comparison with the code: the
evidence-priority rank of an evidence-level token, 1 = highest priority
(CPIC A, then PharmGKB 1A/1B, then CPIC B, then PharmGKB 2A/2B, then CPIC C,
then PharmGKB 3/4, then AI-generated, then anything else). -/
def specEvidenceRank (t : String) : Nat :=
  if t = "A" then 1
  else if t = "1A" ∨ t = "1B" then 2
  else if t = "B" then 3
  else if t = "2A" ∨ t = "2B" then 4
  else if t = "C" then 5
  else if t = "3" ∨ t = "4" then 6
  else if t = "AI-generated" then 7
  else 8

/-- C3 counterexample: merging a CPIC fact with evidence level `"A"` into an
existing entry with evidence level `"1A"` keeps `"1A"`, because the code
compares the tokens with Python string `<` (`"A" < "1A"` is false, `'1' < 'A'`
by code point) — even though the existing level is non-null and `"A"` strictly
precedes `"1A"` under the §4.6a evidence-priority order, so the claim's
"replaced if and only if" fails at this input. -/
theorem merge_evidence_priority_cex :
    (merge_batch_results
        [⟨"Warfarin", "CYP2C9", none, "PharmGKB", some "1A", none, [], none, some "1A"⟩,
         ⟨"Warfarin", "CYP2C9", none, "CPIC", some "A", none, [], some "A", none⟩]).map
      (fun i => i.evidence_level) = [some "1A"] ∧
    specEvidenceRank "A" < specEvidenceRank "1A" ∧
    (some "1A" : Option String) ≠ none ∧
    ¬ ((merge_batch_results
        [⟨"Warfarin", "CYP2C9", none, "PharmGKB", some "1A", none, [], none, some "1A"⟩,
         ⟨"Warfarin", "CYP2C9", none, "CPIC", some "A", none, [], some "A", none⟩]).map
      (fun i => i.evidence_level) = [some "A"]) := by
  refine ⟨by decide, by decide, by decide, by decide⟩

/-- C3 amended: when a subsequent interaction is folded into an existing entry
with the same key, the evidence level is replaced exactly when the new value
is truthy and either the existing value is `None` or the new value is smaller
under Python's lexicographic string `<` — not under the §4.6a
evidence-priority order. -/
theorem merge_evidence_lexical (e i : DrugGeneInteraction) (h : keyOf e = keyOf i) :
    (merge_batch_results [e, i]).map (fun x => x.evidence_level) =
      [if truthy i.evidence_level ∧
          (e.evidence_level = none ∨
            pyLt (i.evidence_level.getD "") (e.evidence_level.getD "") = true) then
        i.evidence_level
      else e.evidence_level] := by
  simp [merge_batch_results, insertMerge, mergeInto, h]

/-- C3 amended witness: the concrete `"1A"` versus `"A"` pair. -/
theorem merge_evidence_lexical_witness :
    keyOf ⟨"Warfarin", "CYP2C9", none, "PharmGKB", some "1A", none, [], none, some "1A"⟩ =
      keyOf ⟨"Warfarin", "CYP2C9", none, "CPIC", some "A", none, [], some "A", none⟩ ∧
    (merge_batch_results
        [⟨"Warfarin", "CYP2C9", none, "PharmGKB", some "1A", none, [], none, some "1A"⟩,
         ⟨"Warfarin", "CYP2C9", none, "CPIC", some "A", none, [], some "A", none⟩]).map
      (fun x => x.evidence_level) =
      [if truthy (some "A") ∧
          ((some "1A" : Option String) = none ∨
            pyLt ((some "A").getD "") ((some "1A").getD "") = true) then
        some "A"
      else some "1A"] :=
  ⟨by decide,
    merge_evidence_lexical
      ⟨"Warfarin", "CYP2C9", none, "PharmGKB", some "1A", none, [], none, some "1A"⟩
      ⟨"Warfarin", "CYP2C9", none, "CPIC", some "A", none, [], some "A", none⟩
      (by decide)⟩

/-- C5 counterexample: three interactions with one key and sources
`"CPIC"`, `"PharmGKB Clinical Annotations"`, `"CPIC"`. The third source is
compared against the whole accumulated comma-joined string, not against the
individual tokens, so `"CPIC"` is appended a second time — the merged source
does not contain each distinct token exactly once. -/
theorem merge_source_token_cex :
    (merge_batch_results
        [⟨"Warfarin", "CYP2C9", none, "CPIC", none, none, ["PMID:1"], some "A", none⟩,
         ⟨"Warfarin", "CYP2C9", none, "PharmGKB Clinical Annotations", none, none,
            ["PMID:2"], none, some "1A"⟩,
         ⟨"Warfarin", "CYP2C9", none, "CPIC", none, none, ["PMID:1", "PMID:3"],
            some "A", none⟩]).map (fun i => i.source) =
      ["CPIC, PharmGKB Clinical Annotations, CPIC"] ∧
    (pySplitCommaSpace "CPIC, PharmGKB Clinical Annotations, CPIC").count "CPIC" = 2 := by
  refine ⟨by decide, by decide⟩

theorem foldl_mergeInto_sameKey (xs : List DrugGeneInteraction)
    (x : DrugGeneInteraction) (h : ∀ i ∈ xs, keyOf i = keyOf x) :
    merge_batch_results (x :: xs) = [xs.foldl mergeInto x] := by
  suffices hgen : ∀ (ys : List DrugGeneInteraction) (y : DrugGeneInteraction),
      (∀ i ∈ ys, keyOf i = keyOf y) →
      ys.foldl insertMerge [y] = [ys.foldl mergeInto y] by
    unfold merge_batch_results
    rw [List.foldl_cons]
    exact hgen xs x h
  intro ys
  induction ys with
  | nil => intro y _; rfl
  | cons i is ih =>
    intro x h
    have hk : keyOf x = keyOf i := (h i (by simp)).symm
    rw [List.foldl_cons, List.foldl_cons]
    have : insertMerge [x] i = [mergeInto x i] := by
      simp [insertMerge, hk]
    rw [this]
    exact ih (mergeInto x i) (fun j hj => by
      rw [keyOf_mergeInto]
      exact h j (by simp [hj]))

theorem foldl_mergeInto_refs_mem (xs : List DrugGeneInteraction)
    (x : DrugGeneInteraction) (r : String) :
    r ∈ (xs.foldl mergeInto x).literature_refs ↔
      r ∈ x.literature_refs ∨ ∃ i ∈ xs, r ∈ i.literature_refs := by
  induction xs generalizing x with
  | nil => simp
  | cons i is ih =>
    rw [List.foldl_cons, ih]
    have : r ∈ (mergeInto x i).literature_refs ↔
        r ∈ x.literature_refs ∨ r ∈ i.literature_refs := by
      simp [mergeInto, List.mem_dedup]
    rw [this]
    constructor
    · rintro ((hx | hi) | ⟨j, hj, hr⟩)
      · exact Or.inl hx
      · exact Or.inr ⟨i, by simp, hi⟩
      · exact Or.inr ⟨j, by simp [hj], hr⟩
    · rintro (hx | ⟨j, hj, hr⟩)
      · exact Or.inl (Or.inl hx)
      · rcases List.mem_cons.mp hj with rfl | hj
        · exact Or.inl (Or.inr hr)
        · exact Or.inr ⟨j, hj, hr⟩

theorem foldl_mergeInto_refs_nodup (xs : List DrugGeneInteraction)
    (x : DrugGeneInteraction) (h : x.literature_refs.Nodup) :
    (xs.foldl mergeInto x).literature_refs.Nodup := by
  induction xs generalizing x with
  | nil => exact h
  | cons i is ih =>
    rw [List.foldl_cons]
    exact ih (mergeInto x i) (by simp [mergeInto, List.nodup_dedup])

theorem foldl_mergeInto_source (xs : List DrugGeneInteraction)
    (x : DrugGeneInteraction) :
    (xs.foldl mergeInto x).source =
      xs.foldl
        (fun acc i => if acc ≠ i.source then acc ++ ", " ++ i.source else acc)
        x.source := by
  induction xs generalizing x with
  | nil => rfl
  | cons i is ih =>
    rw [List.foldl_cons, List.foldl_cons, ih]
    congr 1

/-- C5 amended: for a merge input `x :: xs` whose interactions all share one
merge key, with at least one duplicate, the single merged record's
`literatureRefs` is the duplicate-free set union of all the inputs' literature
references (membership-equal to the union and without duplicates); the
`source` field, however, is the left fold that appends a source whenever it
differs from the entire accumulated comma-joined string, so the same token can
appear more than once when a source recurs after an intervening different
source (see the counterexample). -/
theorem merge_sharedKey_fields (x : DrugGeneInteraction)
    (xs : List DrugGeneInteraction)
    (h : ∀ i ∈ xs, keyOf i = keyOf x) (hne : xs ≠ []) :
    merge_batch_results (x :: xs) = [xs.foldl mergeInto x] ∧
    (∀ r, r ∈ (xs.foldl mergeInto x).literature_refs ↔
      r ∈ x.literature_refs ∨ ∃ i ∈ xs, r ∈ i.literature_refs) ∧
    (xs.foldl mergeInto x).literature_refs.Nodup ∧
    (xs.foldl mergeInto x).source =
      xs.foldl
        (fun acc i => if acc ≠ i.source then acc ++ ", " ++ i.source else acc)
        x.source := by
  refine ⟨foldl_mergeInto_sameKey xs x h,
    fun r => foldl_mergeInto_refs_mem xs x r, ?_, foldl_mergeInto_source xs x⟩
  cases xs with
  | nil => exact absurd rfl hne
  | cons i is =>
    rw [List.foldl_cons]
    exact foldl_mergeInto_refs_nodup is (mergeInto x i)
      (by simp [mergeInto, List.nodup_dedup])

/-- C5 witness: two same-key interactions; the merged record's references are
the deduplicated union and the source is the comma-joined fold. -/
theorem merge_sharedKey_fields_witness :
    (∀ i ∈ [(⟨"Warfarin", "CYP2C9", none, "PharmGKB Clinical Annotations", none, none,
        ["PMID:2", "PMID:1"], none, some "1A"⟩ : DrugGeneInteraction)],
      keyOf i =
        keyOf ⟨"Warfarin", "CYP2C9", none, "CPIC", none, none, ["PMID:1"], some "A", none⟩) ∧
    ([(⟨"Warfarin", "CYP2C9", none, "PharmGKB Clinical Annotations", none, none,
        ["PMID:2", "PMID:1"], none, some "1A"⟩ : DrugGeneInteraction)] ≠ []) ∧
    (merge_batch_results
        [⟨"Warfarin", "CYP2C9", none, "CPIC", none, none, ["PMID:1"], some "A", none⟩,
         ⟨"Warfarin", "CYP2C9", none, "PharmGKB Clinical Annotations", none, none,
            ["PMID:2", "PMID:1"], none, some "1A"⟩] =
      [[(⟨"Warfarin", "CYP2C9", none, "PharmGKB Clinical Annotations", none, none,
          ["PMID:2", "PMID:1"], none, some "1A"⟩ : DrugGeneInteraction)].foldl mergeInto
        ⟨"Warfarin", "CYP2C9", none, "CPIC", none, none, ["PMID:1"], some "A", none⟩] ∧
    (∀ r, r ∈ ([(⟨"Warfarin", "CYP2C9", none, "PharmGKB Clinical Annotations", none, none,
          ["PMID:2", "PMID:1"], none, some "1A"⟩ : DrugGeneInteraction)].foldl mergeInto
        ⟨"Warfarin", "CYP2C9", none, "CPIC", none, none, ["PMID:1"], some "A", none⟩).literature_refs ↔
      r ∈ (⟨"Warfarin", "CYP2C9", none, "CPIC", none, none, ["PMID:1"], some "A",
          none⟩ : DrugGeneInteraction).literature_refs ∨
        ∃ i ∈ [(⟨"Warfarin", "CYP2C9", none, "PharmGKB Clinical Annotations", none, none,
            ["PMID:2", "PMID:1"], none, some "1A"⟩ : DrugGeneInteraction)],
          r ∈ i.literature_refs) ∧
    ([(⟨"Warfarin", "CYP2C9", none, "PharmGKB Clinical Annotations", none, none,
        ["PMID:2", "PMID:1"], none, some "1A"⟩ : DrugGeneInteraction)].foldl mergeInto
      ⟨"Warfarin", "CYP2C9", none, "CPIC", none, none, ["PMID:1"], some "A",
        none⟩).literature_refs.Nodup ∧
    ([(⟨"Warfarin", "CYP2C9", none, "PharmGKB Clinical Annotations", none, none,
        ["PMID:2", "PMID:1"], none, some "1A"⟩ : DrugGeneInteraction)].foldl mergeInto
      ⟨"Warfarin", "CYP2C9", none, "CPIC", none, none, ["PMID:1"], some "A",
        none⟩).source =
      [(⟨"Warfarin", "CYP2C9", none, "PharmGKB Clinical Annotations", none, none,
          ["PMID:2", "PMID:1"], none, some "1A"⟩ : DrugGeneInteraction)].foldl
        (fun acc i => if acc ≠ i.source then acc ++ ", " ++ i.source else acc)
        "CPIC") :=
  ⟨by decide, by decide,
    merge_sharedKey_fields
      ⟨"Warfarin", "CYP2C9", none, "CPIC", none, none, ["PMID:1"], some "A", none⟩
      [⟨"Warfarin", "CYP2C9", none, "PharmGKB Clinical Annotations", none, none,
          ["PMID:2", "PMID:1"], none, some "1A"⟩]
      (by decide) (by decide)⟩

/-! ## Parallel batch processing (`process_in_parallel`)

A per-batch task (`process_batch`) may raise; it is modelled as a function
into `Except`. In the source the tasks are submitted to a `multiprocessing`
pool in batch-index order, the pool is joined, and then
`[result.get() for result in batch_results]` retrieves each handle in the
same submission order; `get()` re-raises the task's exception. There is no
`try/except` around the retrieval or around the sequential `process_batch`
calls, so the first failing index aborts the run. -/

/-- The result-retrieval comprehension: walk the handles in submission order,
re-raising the first stored exception, otherwise collecting the per-batch
partial results in batch-index order. -/
def collectResults (task : Nat → Except String (List DrugGeneInteraction)) :
    List Nat → Except String (List (List DrugGeneInteraction))
  | [] => .ok []
  | i :: is =>
    match task i with
    | .error e => .error e
    | .ok r =>
      match collectResults task is with
      | .error e => .error e
      | .ok rs => .ok (r :: rs)

/-- Embedding of `process_in_parallel` at the partial-result level: compute
`num_batches = (total_variants + batch_size - 1) // batch_size`, run every
batch task, retrieve the per-batch results in index order and merge them.
An exception stored in any handle propagates out of the function. -/
def process_in_parallel (task : Nat → Except String (List DrugGeneInteraction))
    (totalVariants batchSize : Nat) : Except String (List DrugGeneInteraction) :=
  match collectResults task (List.range (numBatches totalVariants batchSize)) with
  | .ok parts => .ok (merge_batch_results parts.flatten)
  | .error e => .error e

/-- C2 counterexample: with two batches, a task raising on batch 0 while
batch 1 succeeds makes the whole run return the exception — the failing batch
does not contribute an empty partial result and no merged result list is
returned, refuting the claimed failure isolation. -/
theorem process_in_parallel_failure_cex :
    process_in_parallel
        (fun i => if i = 0 then .error "SnpEff failed" else .ok []) 2 1 =
      .error "SnpEff failed" ∧
    (process_in_parallel
        (fun i => if i = 0 then .error "SnpEff failed" else .ok []) 2 1).isOk = false := by
  refine ⟨by rfl, by rfl⟩

theorem collectResults_ok (task : Nat → Except String (List DrugGeneInteraction))
    (l : List Nat) (h : ∀ i ∈ l, (task i).isOk = true) :
    collectResults task l = .ok (l.map (fun i => (task i).toOption.getD [])) := by
  induction l with
  | nil => rfl
  | cons i is ih =>
    have hi := h i (by simp)
    rw [List.map_cons]
    cases htask : task i with
    | error e => rw [htask] at hi; simp [Except.isOk, Except.toBool] at hi
    | ok r =>
      simp only [collectResults, htask, ih (fun j hj => h j (by simp [hj])),
        Except.toOption, Option.getD]

theorem collectResults_error (task : Nat → Except String (List DrugGeneInteraction))
    (l : List Nat) (h : ∃ i ∈ l, (task i).isOk = false) :
    (collectResults task l).isOk = false := by
  induction l with
  | nil => simp at h
  | cons i is ih =>
    obtain ⟨j, hj, hfail⟩ := h
    rcases List.mem_cons.mp hj with rfl | hj
    · cases htask : task j with
      | error e => simp [collectResults, htask, Except.isOk, Except.toBool]
      | ok r => rw [htask] at hfail; simp [Except.isOk, Except.toBool] at hfail
    · cases htask : task i with
      | error e => simp [collectResults, htask, Except.isOk, Except.toBool]
      | ok r =>
        have := ih ⟨j, hj, hfail⟩
        simp only [collectResults, htask]
        cases hc : collectResults task is with
        | error e => simp [Except.isOk, Except.toBool]
        | ok rs => rw [hc] at this; simp [Except.isOk, Except.toBool] at this

/-- C2 amended: `process_in_parallel` has no failure isolation. When every
batch task succeeds the run returns the merge of the per-batch partial results
in batch-index order; but as soon as one batch task raises, the exception
propagates out of the run (re-raised by the first failing `get()`), no empty
partial result is substituted for that batch, and no merged list is returned.
Only missing or corrupt persisted batch files — not task exceptions — are
treated as empty contributions at merge time. -/
theorem process_in_parallel_no_isolation
    (task : Nat → Except String (List DrugGeneInteraction))
    (totalVariants batchSize : Nat) :
    ((∀ i ∈ List.range (numBatches totalVariants batchSize), (task i).isOk = true) →
      process_in_parallel task totalVariants batchSize =
        .ok (merge_batch_results
          ((List.range (numBatches totalVariants batchSize)).flatMap
            (fun i => (task i).toOption.getD [])))) ∧
    ((∃ i ∈ List.range (numBatches totalVariants batchSize), (task i).isOk = false) →
      (process_in_parallel task totalVariants batchSize).isOk = false) := by
  constructor
  · intro h
    unfold process_in_parallel
    rw [collectResults_ok task _ h]
    rw [List.flatMap_def]
  · intro h
    unfold process_in_parallel
    have := collectResults_error task _ h
    cases hc : collectResults task (List.range (numBatches totalVariants batchSize)) with
    | error e => simp [Except.isOk, Except.toBool]
    | ok parts => rw [hc] at this; simp [Except.isOk, Except.toBool] at this

/-- C2 amended witness: a two-batch success run merges in order, and the
two-batch run failing at index 0 aborts. -/
theorem process_in_parallel_no_isolation_witness :
    ((∀ i ∈ List.range (numBatches 2 1),
        ((fun _ => (.ok [] : Except String (List DrugGeneInteraction))) i).isOk = true) ∧
      process_in_parallel (fun _ => .ok []) 2 1 =
        .ok (merge_batch_results
          ((List.range (numBatches 2 1)).flatMap
            (fun i => ((fun _ => (.ok [] : Except String (List DrugGeneInteraction))) i
              ).toOption.getD [])))) ∧
    ((∃ i ∈ List.range (numBatches 2 1),
        ((fun j => if j = 0 then .error "boom"
          else (.ok [] : Except String (List DrugGeneInteraction))) i).isOk = false) ∧
      (process_in_parallel
        (fun j => if j = 0 then .error "boom" else .ok []) 2 1).isOk = false) :=
  ⟨⟨by decide,
      (process_in_parallel_no_isolation (fun _ => .ok []) 2 1).1 (by decide)⟩,
    ⟨by decide,
      (process_in_parallel_no_isolation
        (fun j => if j = 0 then .error "boom" else .ok []) 2 1).2 (by decide)⟩⟩

/-! ## Worker-pool result ordering (C8)

`process_in_parallel` submits one task per batch index with `apply_async`,
appending each `AsyncResult` handle to `batch_results` in index order, joins
the pool, and then reads `[result.get() for result in batch_results]`.
The pool may complete the tasks in any order; each handle stores its own
task's result. The completion order is modelled as an explicit schedule `σ`
(the list of batch indices in the order the pool finishes them); a handle's
`get()` looks its index up in the finished store. -/

/-- The pool's finished-result store after running the tasks in completion
order `σ`: one `(index, result)` cell per completed task. -/
def runSchedule {α : Type} (task : Nat → α) (σ : List Nat) : List (Nat × α) :=
  σ.map (fun i => (i, task i))

/-- Retrieval of the handles in submission (batch-index) order: handle `i`
yields the result stored for index `i`, whatever the completion order was. -/
def poolRetrieve {α : Type} (task : Nat → α) (σ : List Nat) (n : Nat) :
    List (Option α) :=
  (List.range n).map (fun i => (runSchedule task σ).lookup i)

theorem lookup_runSchedule {α : Type} (task : Nat → α) (σ : List Nat) (i : Nat)
    (h : i ∈ σ) : (runSchedule task σ).lookup i = some (task i) := by
  induction σ with
  | nil => simp at h
  | cons j rest ih =>
    simp only [runSchedule, List.map_cons, List.lookup]
    by_cases hij : i = j
    · subst hij
      simp
    · have : (i == j) = false := by simp [hij]
      rw [this]
      refine ih ?_
      rcases List.mem_cons.mp h with rfl | h2
      · exact absurd rfl hij
      · exact h2

/-- C8: once the pool has completed every batch task (any completion order
`σ` covering the submitted indices — `pool.join()` guarantees this), the list
retrieved in submission order is exactly the per-batch results ordered by
batch index 0, 1, ..., independent of `σ`. -/
theorem poolRetrieve_ordered_by_index {α : Type} (task : Nat → α) (σ : List Nat)
    (n : Nat) (h : ∀ i < n, i ∈ σ) :
    poolRetrieve task σ n = (List.range n).map (fun i => some (task i)) := by
  unfold poolRetrieve
  apply List.map_congr_left
  intro i hi
  exact lookup_runSchedule task σ i (h i (List.mem_range.mp hi))

/-- C8 witness: three tasks completing in the scrambled order `[2, 0, 1]` are
still retrieved as results 0, 1, 2. -/
theorem poolRetrieve_ordered_by_index_witness :
    (∀ i < 3, i ∈ [2, 0, 1]) ∧
    poolRetrieve (fun i => i * 10) [2, 0, 1] 3 =
      (List.range 3).map (fun i => some (i * 10)) :=
  ⟨by decide, poolRetrieve_ordered_by_index (fun i => i * 10) [2, 0, 1] 3 (by decide)⟩

/-! ## Annotator (`annotator.py`, C9)

`Variant` is the parsed record (`simple_vcf_parser.py`; `qual`, `filter` and
`genotype` are never read by the annotate paths and are omitted);
`AnnotatedVariant` is the annotator's output record; its `annotations` list
holds the per-entry allele/effect/impact/gene fields as key-value rows.

`SnpEffAnnotator.annotate` dispatches on batch size: over 1000 variants it
calls `file_based_annotation` — the only path that invokes SnpEff — whose
entire body sits in a `try` whose `except` (lines 375-389) catches every
failure and returns degraded `AnnotatedVariant` values built from each
record's own fields and info map; at most 1000 variants it maps the total
`_annotate_variant` over the batch, which performs no external call and
cannot fail. The fallible subprocess-and-parse body of the file-based path is
abstracted as a `step` function; the method's own outer `except ... raise` is
kept out of the model because neither branch of its `try` body can raise. -/

structure Variant where
  chrom : String
  pos : Nat
  id : String
  ref : String
  alt : String
  info : List (String × String)
deriving DecidableEq, Repr

structure AnnotatedVariant where
  chrom : String
  pos : Nat
  ref : String
  alt : String
  gene_symbol : Option String
  variant_id : Option String
  annotations : List (List (String × String))
  info : List (String × String)
deriving DecidableEq, Repr

/-- Embedding of `SnpEffAnnotator._annotate_variant` (lines 192-206): a basic
`AnnotatedVariant` whose gene symbol is the record's pre-existing `GENE` info
entry, if any, with the info map carried over and no annotation entries. -/
def annotate_variant (v : Variant) : AnnotatedVariant :=
  ⟨v.chrom, v.pos, v.ref, v.alt, v.info.lookup "GENE", some v.id, [], v.info⟩

/-- The degraded-mode record `file_based_annotation`'s `except` handler
builds (lines 379-389): identical information — the record's own fields, the
`GENE` info entry as gene symbol, the info map, no annotation entries. -/
def fileFallback (v : Variant) : AnnotatedVariant :=
  ⟨v.chrom, v.pos, v.ref, v.alt, v.info.lookup "GENE", some v.id, [], v.info⟩

/-- Embedding of `SnpEffAnnotator.file_based_annotation` (lines 208-389):
the temp-file, subprocess and output-parsing body is `step`; any exception it
raises is caught by the handler at lines 375-389, which returns the degraded
per-record fallback list instead of raising. -/
def file_based_annotation
    (step : List Variant → Except String (List AnnotatedVariant))
    (variants : List Variant) : List AnnotatedVariant :=
  match step variants with
  | .ok r => r
  | .error _ => variants.map fileFallback

/-- Embedding of `SnpEffAnnotator.annotate` (lines 168-190): empty input
short-circuits; over 1000 variants the file-based path runs (catching its own
failures internally); otherwise the total per-variant constructor is mapped.
The method's outer `except ... raise` is unreachable: the large-batch call
returns normally on failure and the small-batch loop is total. -/
def snpEffAnnotate (step : List Variant → Except String (List AnnotatedVariant))
    (variants : List Variant) : List AnnotatedVariant :=
  if variants.isEmpty then []
  else if 1000 < variants.length then file_based_annotation step variants
  else variants.map annotate_variant

/-- The annotate-then-resolve stage of `process_batch` (lines 100-113) with
`skip_annotation = False`: since `SnpEffAnnotator.annotate` always returns a
list, the batch always continues into drug-gene resolution. -/
def process_batch_resolve
    (step : List Variant → Except String (List AnnotatedVariant))
    (resolve : List AnnotatedVariant → List DrugGeneInteraction)
    (variants : List Variant) : List DrugGeneInteraction :=
  resolve (snpEffAnnotate step variants)

/-- C9: when annotation of a batch fails, the pipeline never aborts the
batch. On a SnpEff-invoking batch (over 1000 variants) whose annotation body
fails, the degraded-mode fallback is applied: the batch continues with
`AnnotatedVariant` values carrying only each record's own fields and info map
(including a pre-existing `GENE` entry as the gene symbol), and resolution
runs on them; on a small batch the per-variant constructor is total, so — for
every outcome of the external step — annotation succeeds outright and the
batch likewise continues. -/
theorem annotate_degraded_fallback
    (step : List Variant → Except String (List AnnotatedVariant))
    (resolve : List AnnotatedVariant → List DrugGeneInteraction)
    (variants : List Variant) (e : String)
    (hstep : step variants = .error e) :
    (1000 < variants.length →
      snpEffAnnotate step variants = variants.map fileFallback ∧
      process_batch_resolve step resolve variants =
        resolve (variants.map fileFallback)) ∧
    (variants.length ≤ 1000 → variants ≠ [] →
      snpEffAnnotate step variants = variants.map annotate_variant ∧
      process_batch_resolve step resolve variants =
        resolve (variants.map annotate_variant)) := by
  constructor
  · intro hlen
    have hempty : variants.isEmpty = false := by
      cases variants with
      | nil => simp at hlen
      | cons v vs => rfl
    have hann : snpEffAnnotate step variants = variants.map fileFallback := by
      unfold snpEffAnnotate file_based_annotation
      rw [hstep]
      simp [hempty, hlen]
    exact ⟨hann, by unfold process_batch_resolve; rw [hann]⟩
  · intro hlen hne
    have hempty : variants.isEmpty = false := by
      cases variants with
      | nil => exact absurd rfl hne
      | cons v vs => rfl
    have hann : snpEffAnnotate step variants = variants.map annotate_variant := by
      unfold snpEffAnnotate
      rw [if_neg (by simp [hempty]), if_neg (by omega)]
    exact ⟨hann, by unfold process_batch_resolve; rw [hann]⟩

/-- C9 witness: a 1001-variant batch whose annotation body raises the
source's own `"SnpEff execution failed"` error continues with the degraded
info-map fallback, and a one-variant batch continues through the total
per-variant constructor. -/
theorem annotate_degraded_fallback_witness :
    ((1000 < (List.replicate 1001
        (⟨"1", 100, "rs1", "A", "G", [("GENE", "CYP2C9")]⟩ : Variant)).length) ∧
      snpEffAnnotate (fun _ => .error "SnpEff execution failed")
          (List.replicate 1001 ⟨"1", 100, "rs1", "A", "G", [("GENE", "CYP2C9")]⟩) =
        (List.replicate 1001
          (⟨"1", 100, "rs1", "A", "G", [("GENE", "CYP2C9")]⟩ : Variant)).map
          fileFallback ∧
      process_batch_resolve (fun _ => .error "SnpEff execution failed")
          (fun _ => [])
          (List.replicate 1001 ⟨"1", 100, "rs1", "A", "G", [("GENE", "CYP2C9")]⟩) =
        (fun _ => ([] : List DrugGeneInteraction))
          ((List.replicate 1001
            (⟨"1", 100, "rs1", "A", "G", [("GENE", "CYP2C9")]⟩ : Variant)).map
            fileFallback)) ∧
    (snpEffAnnotate (fun _ => .error "SnpEff execution failed")
        [⟨"1", 100, "rs1", "A", "G", [("GENE", "CYP2C9")]⟩] =
      [(⟨"1", 100, "rs1", "A", "G", [("GENE", "CYP2C9")]⟩ : Variant)].map
        annotate_variant ∧
    process_batch_resolve (fun _ => .error "SnpEff execution failed")
        (fun _ => []) [⟨"1", 100, "rs1", "A", "G", [("GENE", "CYP2C9")]⟩] =
      (fun _ => ([] : List DrugGeneInteraction))
        ([(⟨"1", 100, "rs1", "A", "G", [("GENE", "CYP2C9")]⟩ : Variant)].map
          annotate_variant)) :=
  ⟨⟨by rw [List.length_replicate]; omega,
    (annotate_degraded_fallback (fun _ => .error "SnpEff execution failed")
      (fun _ => [])
      (List.replicate 1001 ⟨"1", 100, "rs1", "A", "G", [("GENE", "CYP2C9")]⟩)
      "SnpEff execution failed" rfl).1 (by rw [List.length_replicate]; omega)⟩,
    (annotate_degraded_fallback (fun _ => .error "SnpEff execution failed")
      (fun _ => []) [⟨"1", 100, "rs1", "A", "G", [("GENE", "CYP2C9")]⟩]
      "SnpEff execution failed" rfl).2 (by decide) (by decide)⟩

/-! ## Identifier normalization (`drug_mapper.py`, C7)

`_normalize_drug_name` strips and lowercases its input and then consults the
`drug_name_variations` table; `_normalize_gene_symbol` strips and uppercases
and consults `gene_aliases`. The tables are built from the knowledge-base
files at load time; their contents are a parameter here. -/

/-- Embedding of `DrugMapper._normalize_drug_name` over an explicit
variations table: `normalized = drug_name.strip().lower()`, returned as-is
when the table has no entry for it. -/
def normalize_drug_name (variations : List (String × String)) (drugName : String) :
    String :=
  match variations.lookup (pyLower (pyStrip drugName)) with
  | some canonical => canonical
  | none => pyLower (pyStrip drugName)

/-- Embedding of `DrugMapper._normalize_gene_symbol` over an explicit
aliases table: `normalized = gene_symbol.strip().upper()`, returned as-is
when the table has no entry for it. -/
def normalize_gene_symbol (aliases : List (String × String)) (geneSymbol : String) :
    String :=
  match aliases.lookup (pyUpper (pyStrip geneSymbol)) with
  | some canonical => canonical
  | none => pyUpper (pyStrip geneSymbol)

theorem toNat_ofNat_valid (n : Nat) (h : n < 55296) : (Char.ofNat n).toNat = n := by
  simp [Char.ofNat, Char.toNat]
  split
  · rfl
  · next hnot => exact absurd (Or.inl (by omega)) hnot

theorem lowerChar_idem (c : Char) : lowerChar (lowerChar c) = lowerChar c := by
  unfold lowerChar
  by_cases h : 65 ≤ c.toNat ∧ c.toNat ≤ 90
  · have hv : (Char.ofNat (c.toNat + 32)).toNat = c.toNat + 32 :=
      toNat_ofNat_valid _ (by omega)
    rw [if_pos h, if_neg (by rw [hv]; omega)]
  · rw [if_neg h, if_neg h]

theorem upperChar_idem (c : Char) : upperChar (upperChar c) = upperChar c := by
  unfold upperChar
  by_cases h : 97 ≤ c.toNat ∧ c.toNat ≤ 122
  · have hv : (Char.ofNat (c.toNat - 32)).toNat = c.toNat - 32 :=
      toNat_ofNat_valid _ (by omega)
    rw [if_pos h, if_neg (by rw [hv]; omega)]
  · rw [if_neg h, if_neg h]

theorem isSpaceChar_lowerChar (c : Char) : isSpaceChar (lowerChar c) = isSpaceChar c := by
  unfold lowerChar isSpaceChar
  by_cases h : 65 ≤ c.toNat ∧ c.toNat ≤ 90
  · have hv : (Char.ofNat (c.toNat + 32)).toNat = c.toNat + 32 :=
      toNat_ofNat_valid _ (by omega)
    rw [if_pos h, hv]
    simp only [decide_eq_decide]
    omega
  · rw [if_neg h]

theorem isSpaceChar_upperChar (c : Char) : isSpaceChar (upperChar c) = isSpaceChar c := by
  unfold upperChar isSpaceChar
  by_cases h : 97 ≤ c.toNat ∧ c.toNat ≤ 122
  · have hv : (Char.ofNat (c.toNat - 32)).toNat = c.toNat - 32 :=
      toNat_ofNat_valid _ (by omega)
    rw [if_pos h, hv]
    simp only [decide_eq_decide]
    omega
  · rw [if_neg h]

theorem head?_dropWhile_not (p : α → Bool) (l : List α) (c : α)
    (h : (l.dropWhile p).head? = some c) : p c = false := by
  induction l with
  | nil => simp [List.dropWhile] at h
  | cons x xs ih =>
    rw [List.dropWhile_cons] at h
    by_cases hx : p x = true
    · rw [if_pos hx] at h
      exact ih h
    · rw [if_neg hx] at h
      simp at h
      subst h
      exact Bool.eq_false_iff.mpr hx

theorem dropWhile_of_head_false (p : α → Bool) (l : List α)
    (h : ∀ c, l.head? = some c → p c = false) : l.dropWhile p = l := by
  cases l with
  | nil => rfl
  | cons x xs =>
    rw [List.dropWhile_cons, if_neg]
    rw [h x rfl]
    simp

theorem dropWhile_dropWhile (p : α → Bool) (l : List α) :
    (l.dropWhile p).dropWhile p = l.dropWhile p :=
  dropWhile_of_head_false p _ (fun c hc => head?_dropWhile_not p l c hc)

theorem getLast?_dropWhile (p : α → Bool) (l : List α) (h : l.dropWhile p ≠ []) :
    (l.dropWhile p).getLast? = l.getLast? := by
  obtain ⟨t, ht⟩ := List.dropWhile_suffix (l := l) p
  conv_rhs => rw [← ht]
  rw [List.getLast?_append]
  cases hlast : (l.dropWhile p).getLast? with
  | none => exact absurd (List.getLast?_eq_none_iff.mp hlast) h
  | some y => rfl

theorem stripL_idem (l : List Char) : stripL (stripL l) = stripL l := by
  have hstep1 : (stripL l).dropWhile isSpaceChar = stripL l := by
    apply dropWhile_of_head_false
    intro c hc
    unfold stripL at hc
    rw [List.head?_reverse] at hc
    have hne : (l.dropWhile isSpaceChar).reverse.dropWhile isSpaceChar ≠ [] := by
      intro hnil
      rw [hnil] at hc
      simp at hc
    rw [getLast?_dropWhile _ _ hne, List.getLast?_reverse] at hc
    exact head?_dropWhile_not _ _ _ hc
  show (((stripL l).dropWhile isSpaceChar).reverse.dropWhile isSpaceChar).reverse =
    stripL l
  rw [hstep1]
  have h2 : (stripL l).reverse =
      (l.dropWhile isSpaceChar).reverse.dropWhile isSpaceChar := by
    unfold stripL
    rw [List.reverse_reverse]
  rw [h2, dropWhile_dropWhile]
  rfl

theorem stripL_map_lower (l : List Char) :
    stripL (l.map lowerChar) = (stripL l).map lowerChar := by
  have hp : (isSpaceChar ∘ lowerChar) = isSpaceChar := funext isSpaceChar_lowerChar
  unfold stripL
  rw [List.dropWhile_map, hp, ← List.map_reverse, List.dropWhile_map, hp,
    ← List.map_reverse]

theorem stripL_map_upper (l : List Char) :
    stripL (l.map upperChar) = (stripL l).map upperChar := by
  have hp : (isSpaceChar ∘ upperChar) = isSpaceChar := funext isSpaceChar_upperChar
  unfold stripL
  rw [List.dropWhile_map, hp, ← List.map_reverse, List.dropWhile_map, hp,
    ← List.map_reverse]

theorem pyLower_pyStrip_idem (x : String) :
    pyLower (pyStrip (pyLower (pyStrip x))) = pyLower (pyStrip x) := by
  show (⟨(stripL ((stripL x.data).map lowerChar)).map lowerChar⟩ : String) =
    ⟨(stripL x.data).map lowerChar⟩
  rw [stripL_map_lower, stripL_idem, List.map_map]
  congr 1
  apply List.map_congr_left
  intro c _
  exact lowerChar_idem c

theorem pyUpper_pyStrip_idem (x : String) :
    pyUpper (pyStrip (pyUpper (pyStrip x))) = pyUpper (pyStrip x) := by
  show (⟨(stripL ((stripL x.data).map upperChar)).map upperChar⟩ : String) =
    ⟨(stripL x.data).map upperChar⟩
  rw [stripL_map_upper, stripL_idem, List.map_map]
  congr 1
  apply List.map_congr_left
  intro c _
  exact upperChar_idem c

theorem lookup_mem {α β : Type} [BEq α] [LawfulBEq α] (l : List (α × β)) (k : α) (v : β)
    (h : l.lookup k = some v) : (k, v) ∈ l := by
  induction l with
  | nil => simp [List.lookup] at h
  | cons p t ih =>
    rcases p with ⟨a, b⟩
    by_cases hk : (k == a) = true
    · simp only [List.lookup, hk, Option.some.injEq] at h
      have hka : k = a := eq_of_beq hk
      subst hka
      subst h
      exact List.mem_cons_self _ _
    · simp only [List.lookup, Bool.eq_false_iff.mpr hk] at h
      exact List.mem_cons_of_mem _ (ih h)

/-- C7 counterexample: normalization is not idempotent for every table the
loader can build. `_build_drug_variations_lookup` first registers every CPIC
drug's registry keys (e.g. `rxnorm:161 -> acetaminophen`) and then overrides
brand/generic keys (`acetaminophen -> paracetamol`), producing a two-step
chain: `normalize("RxNorm:161") = "acetaminophen"` but
`normalize("acetaminophen") = "paracetamol"`, so
`normalize(normalize(x)) ≠ normalize(x)` at `x = "RxNorm:161"`. -/
theorem normalize_idempotence_cex :
    normalize_drug_name
        [("rxnorm:161", "acetaminophen"), ("acetaminophen", "paracetamol"),
         ("paracetamol", "paracetamol")] "RxNorm:161" = "acetaminophen" ∧
    normalize_drug_name
        [("rxnorm:161", "acetaminophen"), ("acetaminophen", "paracetamol"),
         ("paracetamol", "paracetamol")]
        (normalize_drug_name
          [("rxnorm:161", "acetaminophen"), ("acetaminophen", "paracetamol"),
           ("paracetamol", "paracetamol")] "RxNorm:161") = "paracetamol" ∧
    ¬ (normalize_drug_name
        [("rxnorm:161", "acetaminophen"), ("acetaminophen", "paracetamol"),
         ("paracetamol", "paracetamol")]
        (normalize_drug_name
          [("rxnorm:161", "acetaminophen"), ("acetaminophen", "paracetamol"),
           ("paracetamol", "paracetamol")] "RxNorm:161") =
      normalize_drug_name
        [("rxnorm:161", "acetaminophen"), ("acetaminophen", "paracetamol"),
         ("paracetamol", "paracetamol")] "RxNorm:161") := by
  refine ⟨by decide, by decide, by decide⟩

/-- C7 amended: both normalizers are total for every table — an input missing
from the table maps to its trimmed case-normalized form — and they are
idempotent provided every canonical value stored in the table is itself a
normalization fixed point (trim-and-case-normalizing it is the identity, and
the table either has no entry for it or maps it to itself). For arbitrary
table contents idempotence can fail (see the counterexample). -/
theorem normalize_total_and_cond_idempotent
    (variations aliases : List (String × String)) (x : String)
    (hv : ∀ p ∈ variations, pyLower (pyStrip p.2) = p.2 ∧
        (variations.lookup p.2 = none ∨ variations.lookup p.2 = some p.2))
    (ha : ∀ p ∈ aliases, pyUpper (pyStrip p.2) = p.2 ∧
        (aliases.lookup p.2 = none ∨ aliases.lookup p.2 = some p.2)) :
    (variations.lookup (pyLower (pyStrip x)) = none →
      normalize_drug_name variations x = pyLower (pyStrip x)) ∧
    normalize_drug_name variations (normalize_drug_name variations x) =
      normalize_drug_name variations x ∧
    (aliases.lookup (pyUpper (pyStrip x)) = none →
      normalize_gene_symbol aliases x = pyUpper (pyStrip x)) ∧
    normalize_gene_symbol aliases (normalize_gene_symbol aliases x) =
      normalize_gene_symbol aliases x := by
  refine ⟨?_, ?_, ?_, ?_⟩
  · intro h
    unfold normalize_drug_name
    rw [h]
  · cases hl : variations.lookup (pyLower (pyStrip x)) with
    | none =>
      have hx : normalize_drug_name variations x = pyLower (pyStrip x) := by
        unfold normalize_drug_name
        rw [hl]
      rw [hx]
      unfold normalize_drug_name
      rw [pyLower_pyStrip_idem, hl]
    | some v =>
      have hx : normalize_drug_name variations x = v := by
        unfold normalize_drug_name
        rw [hl]
      rw [hx]
      obtain ⟨hv1, hv2⟩ := hv _ (lookup_mem _ _ _ hl)
      unfold normalize_drug_name
      rw [hv1]
      rcases hv2 with h2 | h2 <;> rw [h2]
  · intro h
    unfold normalize_gene_symbol
    rw [h]
  · cases hl : aliases.lookup (pyUpper (pyStrip x)) with
    | none =>
      have hx : normalize_gene_symbol aliases x = pyUpper (pyStrip x) := by
        unfold normalize_gene_symbol
        rw [hl]
      rw [hx]
      unfold normalize_gene_symbol
      rw [pyUpper_pyStrip_idem, hl]
    | some v =>
      have hx : normalize_gene_symbol aliases x = v := by
        unfold normalize_gene_symbol
        rw [hl]
      rw [hx]
      obtain ⟨ha1, ha2⟩ := ha _ (lookup_mem _ _ _ hl)
      unfold normalize_gene_symbol
      rw [ha1]
      rcases ha2 with h2 | h2 <;> rw [h2]

/-- C7 amended witness: a well-formed table pair (every canonical value is a
fixed point) on the input `"  Prilosec "`. -/
theorem normalize_total_and_cond_idempotent_witness :
    (∀ p ∈ [("prilosec", "omeprazole"), ("omeprazole", "omeprazole")],
      pyLower (pyStrip p.2) = p.2 ∧
        ([("prilosec", "omeprazole"), ("omeprazole", "omeprazole")].lookup p.2 = none ∨
         [("prilosec", "omeprazole"), ("omeprazole", "omeprazole")].lookup p.2 = some p.2)) ∧
    (∀ p ∈ [("2C9", "CYP2C9"), ("CYP2C9", "CYP2C9")],
      pyUpper (pyStrip p.2) = p.2 ∧
        ([("2C9", "CYP2C9"), ("CYP2C9", "CYP2C9")].lookup p.2 = none ∨
         [("2C9", "CYP2C9"), ("CYP2C9", "CYP2C9")].lookup p.2 = some p.2)) ∧
    (([("prilosec", "omeprazole"), ("omeprazole", "omeprazole")].lookup
        (pyLower (pyStrip "  Prilosec ")) = none →
      normalize_drug_name [("prilosec", "omeprazole"), ("omeprazole", "omeprazole")]
        "  Prilosec " = pyLower (pyStrip "  Prilosec ")) ∧
    normalize_drug_name [("prilosec", "omeprazole"), ("omeprazole", "omeprazole")]
        (normalize_drug_name [("prilosec", "omeprazole"), ("omeprazole", "omeprazole")]
          "  Prilosec ") =
      normalize_drug_name [("prilosec", "omeprazole"), ("omeprazole", "omeprazole")]
        "  Prilosec " ∧
    (([("2C9", "CYP2C9"), ("CYP2C9", "CYP2C9")] : List (String × String)).lookup
        (pyUpper (pyStrip "  Prilosec ")) = none →
      normalize_gene_symbol [("2C9", "CYP2C9"), ("CYP2C9", "CYP2C9")] "  Prilosec " =
        pyUpper (pyStrip "  Prilosec ")) ∧
    normalize_gene_symbol [("2C9", "CYP2C9"), ("CYP2C9", "CYP2C9")]
        (normalize_gene_symbol [("2C9", "CYP2C9"), ("CYP2C9", "CYP2C9")] "  Prilosec ") =
      normalize_gene_symbol [("2C9", "CYP2C9"), ("CYP2C9", "CYP2C9")] "  Prilosec ") :=
  ⟨by decide, by decide,
    normalize_total_and_cond_idempotent
      [("prilosec", "omeprazole"), ("omeprazole", "omeprazole")]
      [("2C9", "CYP2C9"), ("CYP2C9", "CYP2C9")]
      "  Prilosec " (by decide) (by decide)⟩

/-! ## Per-drug deduplication and evidence sort
(`DrugMapper._deduplicate_and_sort_interactions`, C10) -/

/-- The duplicate key of the per-drug deduplication:
`(interaction.drug, interaction.gene, interaction.source)`. -/
def tripleOf (i : DrugGeneInteraction) : String × String × String :=
  (i.drug, i.gene, i.source)

/-- The deduplication loop: walk the list with a `seen` set of triples,
keeping an interaction only when its triple has not been seen. -/
def dedupFirstGo (seen : List (String × String × String)) :
    List DrugGeneInteraction → List DrugGeneInteraction
  | [] => []
  | i :: is =>
    if tripleOf i ∈ seen then dedupFirstGo seen is
    else i :: dedupFirstGo (tripleOf i :: seen) is

/-- The deduplication pass of `_deduplicate_and_sort_interactions`. -/
def dedupFirst (l : List DrugGeneInteraction) : List DrugGeneInteraction :=
  dedupFirstGo [] l

/-- Embedding of the inner `evidence_priority` key function: CPIC A, then
PharmGKB 1A/1B, then CPIC B, then PharmGKB 2A/2B, then CPIC C, then
PharmGKB 3/4, then the Cohere AI source, then anything else. -/
def evidence_priority (i : DrugGeneInteraction) : Nat :=
  if i.cpic_level = some "A" then 1
  else if i.pharmgkb_level = some "1A" ∨ i.pharmgkb_level = some "1B" then 2
  else if i.cpic_level = some "B" then 3
  else if i.pharmgkb_level = some "2A" ∨ i.pharmgkb_level = some "2B" then 4
  else if i.cpic_level = some "C" then 5
  else if i.pharmgkb_level = some "3" ∨ i.pharmgkb_level = some "4" then 6
  else if i.source = "Cohere AI" then 7
  else 8

/-- Embedding of Python's stable `sorted(unique_interactions,
key=evidence_priority)`: a stable sort by an integer key with values in
`1..8` is exactly the concatenation of the equal-key classes, in ascending
key order, each in input order. -/
def sortByEvidence (l : List DrugGeneInteraction) : List DrugGeneInteraction :=
  (List.range' 1 8).flatMap (fun k => l.filter (fun i => evidence_priority i = k))

/-- Embedding of `_deduplicate_and_sort_interactions`: drop later duplicates
of each `(drug, gene, source)` triple, then stably sort by evidence
priority. -/
def deduplicate_and_sort_interactions (l : List DrugGeneInteraction) :
    List DrugGeneInteraction :=
  sortByEvidence (dedupFirst l)

/-- Spec-side characterization of the deduplication: keep each list head and
drop every later interaction with the same `(drug, gene, source)` triple,
whatever its other fields are. -/
def firstOccurrences : List DrugGeneInteraction → List DrugGeneInteraction
  | [] => []
  | i :: is =>
    i :: firstOccurrences (is.filter (fun j => tripleOf j ≠ tripleOf i))
termination_by l => l.length
decreasing_by
  simp only [List.length_cons]
  exact Nat.lt_succ_of_le (List.length_filter_le _ _)

theorem firstOccurrences_nil : firstOccurrences [] = [] := by
  rw [firstOccurrences]

theorem firstOccurrences_cons (i : DrugGeneInteraction)
    (is : List DrugGeneInteraction) :
    firstOccurrences (i :: is) =
      i :: firstOccurrences (is.filter (fun j => tripleOf j ≠ tripleOf i)) := by
  rw [firstOccurrences]

theorem dedupFirstGo_eq_firstOccurrences (l : List DrugGeneInteraction) :
    ∀ seen, dedupFirstGo seen l =
      firstOccurrences (l.filter (fun i => tripleOf i ∉ seen)) := by
  induction l with
  | nil => intro seen; rw [List.filter_nil, firstOccurrences_nil]; rfl
  | cons i is ih =>
    intro seen
    by_cases hmem : tripleOf i ∈ seen
    · rw [dedupFirstGo, if_pos hmem, List.filter_cons, if_neg (by simp [hmem]), ih]
    · rw [dedupFirstGo, if_neg hmem, List.filter_cons, if_pos (by simp [hmem]),
        firstOccurrences_cons, ih (tripleOf i :: seen), List.filter_filter]
      congr 2
      apply List.filter_congr
      intro j _
      simp only [List.mem_cons, decide_not]
      by_cases h1 : tripleOf j = tripleOf i <;> by_cases h2 : tripleOf j ∈ seen <;>
        simp [h1, h2]

theorem evidence_priority_bounds (i : DrugGeneInteraction) :
    1 ≤ evidence_priority i ∧ evidence_priority i ≤ 8 := by
  unfold evidence_priority
  repeat' split
  all_goals omega

theorem evidence_priority_mem_range' (i : DrugGeneInteraction) :
    evidence_priority i ∈ List.range' 1 8 := by
  have h := evidence_priority_bounds i
  rw [List.mem_range']
  exact ⟨evidence_priority i - 1, by omega, by omega⟩

theorem sortByEvidence_pairwise (l : List DrugGeneInteraction) :
    (sortByEvidence l).Pairwise
      (fun a b => evidence_priority a ≤ evidence_priority b) := by
  unfold sortByEvidence
  rw [List.flatMap_def, List.pairwise_flatten]
  constructor
  · intro l' hl'
    obtain ⟨k, _, rfl⟩ := List.mem_map.mp hl'
    apply List.pairwise_of_forall_mem_list
    intro a ha b hb
    have ha' := (List.mem_filter.mp ha).2
    have hb' := (List.mem_filter.mp hb).2
    simp only [decide_eq_true_eq] at ha' hb'
    omega
  · rw [List.pairwise_map]
    apply (List.pairwise_lt_range' 1 8).imp
    intro k1 k2 hlt x hx y hy
    have hx' := (List.mem_filter.mp hx).2
    have hy' := (List.mem_filter.mp hy).2
    simp only [decide_eq_true_eq] at hx' hy'
    omega

theorem filter_flatMap_bucket (k : Nat) :
    ∀ (ks : List Nat), ks.Nodup → ∀ (l : List DrugGeneInteraction),
      (ks.flatMap (fun j => l.filter (fun i => evidence_priority i = j))).filter
          (fun i => evidence_priority i = k) =
        if k ∈ ks then l.filter (fun i => evidence_priority i = k) else [] := by
  intro ks
  induction ks with
  | nil => intro _ l; simp
  | cons j js ih =>
    intro hnd l
    rw [List.flatMap_cons, List.filter_append, ih (List.nodup_cons.mp hnd).2 l,
      List.filter_filter]
    by_cases hjk : k = j
    · subst hjk
      have hknot : k ∉ js := (List.nodup_cons.mp hnd).1
      rw [if_neg hknot, if_pos (List.mem_cons_self k js), List.append_nil]
      apply List.filter_congr
      intro i _
      by_cases h : evidence_priority i = k <;> simp [h]
    · have hfirst : l.filter
          (fun i => decide (evidence_priority i = k) && decide (evidence_priority i = j)) =
          [] := by
        rw [List.filter_eq_nil_iff]
        intro i _
        simp only [Bool.and_eq_true, decide_eq_true_eq]
        intro ⟨h1, h2⟩
        exact hjk (h1 ▸ h2 ▸ rfl)
      rw [hfirst, List.nil_append]
      by_cases hks : k ∈ js
      · rw [if_pos hks, if_pos (List.mem_cons_of_mem _ hks)]
      · rw [if_neg hks, if_neg (by simp [hjk, hks])]

theorem flatMap_buckets_perm :
    ∀ (ks : List Nat), ks.Nodup → ∀ (l : List DrugGeneInteraction),
      (∀ x ∈ l, evidence_priority x ∈ ks) →
      (ks.flatMap (fun k => l.filter (fun i => evidence_priority i = k))).Perm l := by
  intro ks
  induction ks with
  | nil =>
    intro _ l hcov
    cases l with
    | nil => simp
    | cons x xs => exact absurd (hcov x (by simp)) (by simp)
  | cons k js ih =>
    intro hnd l hcov
    rw [List.flatMap_cons]
    have hrest : ∀ j ∈ js, l.filter (fun i => evidence_priority i = j) =
        (l.filter (fun i => ¬ evidence_priority i = k)).filter
          (fun i => evidence_priority i = j) := by
      intro j hj
      rw [List.filter_filter]
      apply List.filter_congr
      intro i _
      by_cases hik : evidence_priority i = j
      · have hjk : ¬ evidence_priority i = k := by
          intro hk
          have hkj : j = k := by omega
          exact (List.nodup_cons.mp hnd).1 (hkj ▸ hj)
        simp [hik, hjk]
        omega
      · simp [hik]
    have hmap : js.flatMap (fun j => l.filter (fun i => evidence_priority i = j)) =
        js.flatMap (fun j => (l.filter (fun i => ¬ evidence_priority i = k)).filter
          (fun i => evidence_priority i = j)) :=
      List.flatMap_congr hrest
    rw [hmap]
    have hsub : ((js.flatMap
        (fun j => (l.filter (fun i => ¬ evidence_priority i = k)).filter
          (fun i => evidence_priority i = j)))).Perm
        (l.filter (fun i => ¬ evidence_priority i = k)) := by
      apply ih (List.nodup_cons.mp hnd).2
      intro x hx
      have hx1 := (List.mem_filter.mp hx).1
      have hx2 := (List.mem_filter.mp hx).2
      have hcx := hcov x hx1
      simp only [List.mem_cons] at hcx
      rcases hcx with h | h
      · simp only [decide_not, Bool.not_eq_eq_eq_not, Bool.not_true,
          decide_eq_false_iff_not] at hx2
        exact absurd h hx2
      · exact h
    refine List.Perm.trans (List.Perm.append_left _ hsub) ?_
    have heq : l.filter (fun i => ¬ evidence_priority i = k) =
        l.filter (fun i => !(decide (evidence_priority i = k))) := by
      apply List.filter_congr
      intro i _
      simp
    rw [heq]
    exact List.filter_append_perm _ l

/-- C10: the per-drug deduplicate-and-sort step keeps exactly the first
occurrence of each `(drug, gene, source)` triple — dropping every later
interaction with the same triple whatever its other fields — and then orders
the kept interactions stably by ascending evidence-priority rank: the output
is a permutation of the kept interactions, pairwise sorted by
`evidence_priority`, and within each priority class the original relative
order is preserved (filtering by any fixed rank commutes with the sort). -/
theorem deduplicate_and_sort_correct (l : List DrugGeneInteraction) :
    dedupFirst l = firstOccurrences l ∧
    deduplicate_and_sort_interactions l = sortByEvidence (firstOccurrences l) ∧
    (deduplicate_and_sort_interactions l).Perm (firstOccurrences l) ∧
    (deduplicate_and_sort_interactions l).Pairwise
      (fun a b => evidence_priority a ≤ evidence_priority b) ∧
    ∀ k, (deduplicate_and_sort_interactions l).filter
        (fun i => evidence_priority i = k) =
      (firstOccurrences l).filter (fun i => evidence_priority i = k) := by
  have hded : dedupFirst l = firstOccurrences l := by
    unfold dedupFirst
    rw [dedupFirstGo_eq_firstOccurrences l []]
    congr 1
    simp
  have hnd : (List.range' 1 8).Nodup := List.nodup_range' 1 8 1 (by omega)
  refine ⟨hded, ?_, ?_, ?_, ?_⟩
  · unfold deduplicate_and_sort_interactions
    rw [hded]
  · unfold deduplicate_and_sort_interactions sortByEvidence
    rw [hded]
    exact flatMap_buckets_perm (List.range' 1 8) hnd _
      (fun x _ => evidence_priority_mem_range' x)
  · unfold deduplicate_and_sort_interactions
    rw [hded]
    exact sortByEvidence_pairwise _
  · intro k
    unfold deduplicate_and_sort_interactions sortByEvidence
    rw [hded, filter_flatMap_bucket k (List.range' 1 8) hnd]
    by_cases hk : k ∈ List.range' 1 8
    · rw [if_pos hk]
    · rw [if_neg hk]
      symm
      rw [List.filter_eq_nil_iff]
      intro i _
      simp only [decide_eq_true_eq]
      intro hik
      exact hk (hik ▸ evidence_priority_mem_range' i)

/-! ## Interaction resolution (`DrugMapper`, C6)

The mapper's loaded data and lookup tables are explicit values here. JSON
fields that can be absent or null are `Option`; fields the code reads with
`.get(key, '')` and immediately case-normalizes are plain strings. The
`title()`d drug casing of the constructed interactions is modelled by
`pyTitle`. -/

/-- Model of Python `str.title`: uppercase each letter that starts a run of
letters, lowercase every other letter. -/
def titleGo : Bool → List Char → List Char
  | _, [] => []
  | prevAlpha, c :: cs =>
    if (65 ≤ c.toNat ∧ c.toNat ≤ 90) ∨ (97 ≤ c.toNat ∧ c.toNat ≤ 122) then
      (if prevAlpha then lowerChar c else upperChar c) :: titleGo true cs
    else c :: titleGo false cs

/-- Model of Python `str.title` on strings. -/
def pyTitle (s : String) : String := ⟨titleGo false s.data⟩

/-- Split a character list on single commas (model of Python
`str.split(',')`, used by the broader-scan membership test — note: no
stripping of the resulting tokens). -/
def splitComma : List Char → List (List Char)
  | [] => [[]]
  | ',' :: rest => [] :: splitComma rest
  | c :: cs =>
    match splitComma cs with
    | [] => [[c]]
    | t :: ts => (c :: t) :: ts

/-- Model of Python `s.split(",")` on strings. -/
def pySplitComma (s : String) : List String :=
  (splitComma s.data).map (fun l => ⟨l⟩)

/-- One stored value of `drug_gene_lookup` (the dicts built by
`_build_cpic_drug_gene_lookup` and `_build_pharmgkb_lookup`; the keys each
builder omits are `none`). -/
structure InteractionData where
  source : String
  cpic_level : Option String
  pgkb_ca_level : Option String
  pgx_testing : Option String
  guideline_id : Option String
  pharmgkb_level : Option String
  phenotype : Option String
  clinical_annotation_id : Option String
  last_updated : Option String
deriving DecidableEq, Repr

/-- A CPIC drug row: `name` read with `.get('name', '')`, `drugid` with
`.get('drugid')`. -/
structure CpicDrug where
  name : String
  drugid : Option String
deriving DecidableEq, Repr

/-- A CPIC pair row (the fields `_get_all_drug_interactions` reads). -/
structure CpicPair where
  genesymbol : String
  drugid : Option String
  cpiclevel : Option String
  pgkbcalevel : Option String
  pgxtesting : Option String
  guidelineid : Option String
deriving DecidableEq, Repr

/-- A CPIC recommendation row (the fields `_get_cpic_recommendations` reads). -/
structure CpicRec where
  guidelineid : Option String
  phenotype : Option String
  recommendation : Option String
deriving DecidableEq, Repr

/-- A PharmGKB clinical-annotations row (the columns the resolution reads:
`Drug(s)`, `Gene`, `Level of Evidence`, `Phenotype(s)`,
`Clinical Annotation ID`). -/
structure PgkbRow where
  drugs : String
  gene : String
  evidence : Option String
  phen : Option String
  clinical_annotation_id : Option String
deriving DecidableEq, Repr

/-- The `DrugMapper`'s loaded data and lookup tables. -/
structure MapperData where
  drug_gene_lookup : List (String × List InteractionData)
  cpicDrugs : List CpicDrug
  cpicPairs : List CpicPair
  cpicRecs : List CpicRec
  pgkbAnns : List PgkbRow
  drug_name_variations : List (String × String)
  gene_aliases : List (String × String)
deriving DecidableEq, Repr

/-- Embedding of `_get_cpic_recommendations`: when a truthy guideline id is
given, the first recommendation row with that guideline id supplies phenotype
and recommendation; otherwise the defaults stand. -/
def get_cpic_recommendations (recs : List CpicRec) (gid : Option String) :
    String × String :=
  if truthy gid then
    match recs.find? (fun r => r.guidelineid == gid) with
    | some r =>
      (r.phenotype.getD "Unknown",
       r.recommendation.getD "No specific recommendation available")
    | none => ("Unknown", "No specific recommendation available")
  else ("Unknown", "No specific recommendation available")

/-- Embedding of `_create_cpic_interaction` (the `drug_info`/`gene_info`
lookups of the source are dead stores and are not modelled). -/
def create_cpic_interaction (recs : List CpicRec) (drug gene : String)
    (d : InteractionData) : DrugGeneInteraction :=
  { drug := pyTitle drug
    gene := gene
    phenotype := some (get_cpic_recommendations recs d.guideline_id).1
    source := "CPIC"
    evidence_level := d.cpic_level
    recommendation := some (get_cpic_recommendations recs d.guideline_id).2
    literature_refs := []
    cpic_level := d.cpic_level
    pharmgkb_level := d.pgkb_ca_level }

/-- Embedding of `_create_pharmgkb_interaction`. -/
def create_pharmgkb_interaction (drug gene : String) (d : InteractionData) :
    DrugGeneInteraction :=
  { drug := pyTitle drug
    gene := gene
    phenotype := d.phenotype
    source := "PharmGKB"
    evidence_level := d.pharmgkb_level
    recommendation := some "Clinical annotation available. See PharmGKB for details."
    literature_refs := []
    cpic_level := none
    pharmgkb_level := d.pharmgkb_level }

/-- The per-gene lookup pass of `_get_comprehensive_interactions`: for each
input gene, normalize it and look up `f"{drug}|{gene}"`; every stored fact
becomes one interaction (CPIC facts through the CPIC constructor, the rest
through the PharmGKB constructor). The input gene set is modelled as a list;
only emptiness of the result matters to the fallback contract. -/
def perGeneResults (m : MapperData) (drug : String) (genes : List String) :
    List DrugGeneInteraction :=
  genes.flatMap (fun g =>
    match m.drug_gene_lookup.lookup
        (drug ++ "|" ++ normalize_gene_symbol m.gene_aliases g) with
    | some datas =>
      datas.map (fun d =>
        if d.source = "CPIC" then
          create_cpic_interaction m.cpicRecs drug
            (normalize_gene_symbol m.gene_aliases g) d
        else
          create_pharmgkb_interaction drug
            (normalize_gene_symbol m.gene_aliases g) d)
    | none => [])

/-- Embedding of `_get_all_drug_interactions`, the broader scan: every CPIC
pair whose drug id belongs to the drug (truthy ids of CPIC drugs whose
lowercased name equals the normalized drug), plus every PharmGKB clinical
annotation whose lowercased comma-split `Drug(s)` list contains the drug
(tokens are not stripped). -/
def get_all_drug_interactions (m : MapperData) (drug : String) :
    List DrugGeneInteraction :=
  (m.cpicPairs.flatMap (fun p =>
    match p.drugid with
    | some i =>
      if i ∈ m.cpicDrugs.filterMap (fun dd =>
          if pyLower dd.name = drug then
            match dd.drugid with
            | some j => if j.data.isEmpty then none else some j
            | none => none
          else none) then
        if (pyUpper p.genesymbol).data.isEmpty then []
        else
          [create_cpic_interaction m.cpicRecs drug (pyUpper p.genesymbol)
            ⟨"CPIC", p.cpiclevel, p.pgkbcalevel, p.pgxtesting, p.guidelineid,
              none, none, none, none⟩]
      else []
    | none => [])) ++
  (m.pgkbAnns.flatMap (fun a =>
    if drug ∈ pySplitComma (pyLower a.drugs) then
      if (pyUpper a.gene).data.isEmpty then []
      else
        [create_pharmgkb_interaction drug (pyUpper a.gene)
          ⟨"PharmGKB Clinical Annotations", none, none, none, none,
            a.evidence, a.phen, a.clinical_annotation_id, none⟩]
    else []))

/-- Embedding of `_get_comprehensive_interactions`: the broader scan is
consulted only when the per-gene lookups produced nothing. -/
def get_comprehensive_interactions (m : MapperData) (drug : String)
    (genes : List String) : List DrugGeneInteraction :=
  if (perGeneResults m drug genes).isEmpty then get_all_drug_interactions m drug
  else perGeneResults m drug genes

/-- Embedding of `_get_ai_analysis`: the external AI call's outcome is a
parameter; any exception it raises is caught and an empty list returned. -/
def get_ai_analysis (ai : Except String (List DrugGeneInteraction)) :
    List DrugGeneInteraction :=
  match ai with
  | .ok l => l
  | .error _ => []

/-- The per-drug body of `map_drugs_to_genes`: normalize the drug, resolve
comprehensively, and either deduplicate-and-sort the database hits or fall
back to the AI analysis (whose empty result remains the empty list). -/
def map_drug_entry (m : MapperData) (ai : Except String (List DrugGeneInteraction))
    (drugRaw : String) (genes : List String) : List DrugGeneInteraction :=
  if (get_comprehensive_interactions m
      (normalize_drug_name m.drug_name_variations drugRaw) genes).isEmpty then
    get_ai_analysis ai
  else
    deduplicate_and_sort_interactions
      (get_comprehensive_interactions m
        (normalize_drug_name m.drug_name_variations drugRaw) genes)

/-- C6: interaction resolution for one drug is total by construction (every
path returns a list, with no exception for a missing drug or gene), and the
fallbacks are tried strictly in order: the broader all-facts-for-the-drug
scan is used exactly when the per-gene lookups yield no interaction; the AI
fallback is consulted exactly when that broader scan also yields nothing
(when any database interaction exists, the entry is its deduplicated sorted
form for every possible AI outcome); and an AI failure is swallowed, leaving
the empty list. -/
theorem resolution_fallback_order (m : MapperData)
    (ai : Except String (List DrugGeneInteraction)) (drugRaw : String)
    (genes : List String) :
    (perGeneResults m (normalize_drug_name m.drug_name_variations drugRaw) genes ≠ [] →
      get_comprehensive_interactions m
          (normalize_drug_name m.drug_name_variations drugRaw) genes =
        perGeneResults m (normalize_drug_name m.drug_name_variations drugRaw) genes) ∧
    (perGeneResults m (normalize_drug_name m.drug_name_variations drugRaw) genes = [] →
      get_comprehensive_interactions m
          (normalize_drug_name m.drug_name_variations drugRaw) genes =
        get_all_drug_interactions m
          (normalize_drug_name m.drug_name_variations drugRaw)) ∧
    (get_comprehensive_interactions m
          (normalize_drug_name m.drug_name_variations drugRaw) genes ≠ [] →
      map_drug_entry m ai drugRaw genes =
        deduplicate_and_sort_interactions
          (get_comprehensive_interactions m
            (normalize_drug_name m.drug_name_variations drugRaw) genes)) ∧
    (get_comprehensive_interactions m
          (normalize_drug_name m.drug_name_variations drugRaw) genes = [] →
      ∀ e, ai = .error e → map_drug_entry m ai drugRaw genes = []) ∧
    (get_comprehensive_interactions m
          (normalize_drug_name m.drug_name_variations drugRaw) genes = [] →
      ∀ found, ai = .ok found → map_drug_entry m ai drugRaw genes = found) := by
  refine ⟨?_, ?_, ?_, ?_, ?_⟩
  · intro h
    unfold get_comprehensive_interactions
    rw [if_neg (by simpa [List.isEmpty_iff] using h)]
  · intro h
    unfold get_comprehensive_interactions
    rw [if_pos (by simpa [List.isEmpty_iff] using h)]
  · intro h
    unfold map_drug_entry
    rw [if_neg (by simpa [List.isEmpty_iff] using h)]
  · intro h e hai
    unfold map_drug_entry
    rw [if_pos (by simpa [List.isEmpty_iff] using h), hai]
    rfl
  · intro h found hai
    unfold map_drug_entry
    rw [if_pos (by simpa [List.isEmpty_iff] using h), hai]
    rfl

/-- C6 witness: a mapper with no knowledge-base rows at all — the per-gene
pass is empty, the broader scan equals the (empty) all-drug scan, and with a
failing AI collaborator the entry is the empty list, not an exception. -/
theorem resolution_fallback_order_witness :
    (perGeneResults ⟨[], [], [], [], [], [], []⟩
        (normalize_drug_name (⟨[], [], [], [], [], [], []⟩ : MapperData).drug_name_variations
          "Warfarin") ["CYP2C9"] = []) ∧
    (get_comprehensive_interactions ⟨[], [], [], [], [], [], []⟩
        (normalize_drug_name (⟨[], [], [], [], [], [], []⟩ : MapperData).drug_name_variations
          "Warfarin") ["CYP2C9"] =
      get_all_drug_interactions ⟨[], [], [], [], [], [], []⟩
        (normalize_drug_name (⟨[], [], [], [], [], [], []⟩ : MapperData).drug_name_variations
          "Warfarin")) ∧
    (map_drug_entry ⟨[], [], [], [], [], [], []⟩ (.error "AI unavailable")
        "Warfarin" ["CYP2C9"] = []) :=
  ⟨by decide,
    (resolution_fallback_order ⟨[], [], [], [], [], [], []⟩ (.error "AI unavailable")
      "Warfarin" ["CYP2C9"]).2.1 (by decide),
    (resolution_fallback_order ⟨[], [], [], [], [], [], []⟩ (.error "AI unavailable")
      "Warfarin" ["CYP2C9"]).2.2.2.1 (by decide) "AI unavailable" rfl⟩
